import Mathlib

/-!
Shallow embedding of the SSH client's key-exchange driver (`src/kex.rs`) and
channel state machine (`src/channel.rs`).  Pure data is embedded directly;
transport I/O is modelled by explicit state passing: incoming packets are a
list of raw messages (each a list of bytes), outgoing packets accumulate in a
write log.  Collaborators that live outside the two source files (the byte
codec `packet::Data`, the crypto primitives, the process-wide encryption and
configuration slots) are modelled from the spec, as noted on each definition.
-/

namespace SshRs

/-- Message codes used by the core (spec section 6, `constant::ssh_msg_code`). -/
def SSH_MSG_KEXINIT : Nat := 20
def SSH_MSG_NEWKEYS : Nat := 21
def SSH_MSG_KEX_ECDH_INIT : Nat := 30
def SSH_MSG_KEX_ECDH_REPLY : Nat := 31
def SSH_MSG_GLOBAL_REQUEST : Nat := 80
def SSH_MSG_REQUEST_FAILURE : Nat := 82
def SSH_MSG_CHANNEL_WINDOW_ADJUST : Nat := 93
def SSH_MSG_CHANNEL_EOF : Nat := 96
def SSH_MSG_CHANNEL_CLOSE : Nat := 97
def SSH_MSG_CHANNEL_REQUEST : Nat := 98
def SSH_MSG_CHANNEL_SUCCESS : Nat := 99
def SSH_MSG_CHANNEL_FAILURE : Nat := 100

/-- Error kinds of `SshErrorKind` that the two source files raise or propagate. -/
inductive SshErrorKind where
  | SignatureError
  | ChannelFailureError
  | OtherError
deriving DecidableEq

/-- Result of one protocol operation: `ok`, an error, or `pending` when the
Rust loop would keep blocking on the transport (input exhausted). -/
inductive Outcome (α : Type) where
  | ok : α → Outcome α
  | err : SshErrorKind → Outcome α
  | pending : Outcome α
deriving DecidableEq

/-- Big-endian 4-byte encoding of a u32 (`Data::put_u32`). -/
def u32be (n : Nat) : List Nat :=
  [n / 2 ^ 24 % 256, n / 2 ^ 16 % 256, n / 2 ^ 8 % 256, n % 256]

/-- Value of four big-endian bytes. -/
def u32val (a b c d : Nat) : Nat :=
  a % 256 * 2 ^ 24 + b % 256 * 2 ^ 16 + c % 256 * 2 ^ 8 + d % 256

/-- Modelled from the spec: `packet::Data::get_u8` consumes one byte.  The
source's codec is not under `src/`; readers are totalized (an underflow yields
zero and an empty remainder), which no verified property exercises. -/
def getU8 : List Nat → Nat × List Nat
  | [] => (0, [])
  | b :: r => (b, r)

/-- Modelled from the spec: `packet::Data::get_u32` consumes four big-endian
bytes (totalized on underflow). -/
def getU32 : List Nat → Nat × List Nat
  | a :: b :: c :: d :: r => (u32val a b c d, r)
  | l => ((getU8 l).1 * 0, [])

/-- Modelled from the spec: `packet::Data::get_u8s` reads a length-prefixed
string (u32 length, then that many bytes; totalized on underflow). -/
def getU8s (d : List Nat) : List Nat × List Nat :=
  ((getU32 d).2.take (getU32 d).1, (getU32 d).2.drop (getU32 d).1)

/-- Modelled from the spec: `packet::Data::skip` drops `n` bytes. -/
def skipBytes (n : Nat) (d : List Nat) : List Nat := d.drop n

/-- SSH `string` wire encoding: u32 length prefix plus the raw bytes
(`Data::put_u8s` and `put_str`). -/
def sshStr (s : List Nat) : List Nat := u32be s.length ++ s

/-- Modelled from the spec: `mpint` encoding of the shared secret K, a
positive integer in big-endian bytes: leading zeros stripped, a 0x00 byte
prepended when the most significant bit is set, length-prefixed. -/
def mpint (k : List Nat) : List Nat :=
  let t := k.dropWhile (· = 0)
  match t with
  | [] => sshStr []
  | b :: _ => if 128 ≤ b then sshStr (0 :: t) else sshStr t

/-- Transcript H of one key exchange (`encryption::H`, modelled from the spec:
the ordered tuple of eight fields, each settable; not under `src/`). -/
structure Htr where
  v_c : List Nat
  v_s : List Nat
  i_c : List Nat
  i_s : List Nat
  k_s : List Nat
  q_c : List Nat
  q_s : List Nat
  k : List Nat
deriving DecidableEq

/-- Fresh empty transcript (`H::new`). -/
def Htr.new : Htr := ⟨[], [], [], [], [], [], [], []⟩

/-- Modelled from the spec: `H::as_bytes` encodes the eight transcript fields
in order, each as an SSH string, with K as an mpint. -/
def Htr.asBytes (h : Htr) : List Nat :=
  sshStr h.v_c ++ sshStr h.v_s ++ sshStr h.i_c ++ sshStr h.i_s ++
  sshStr h.k_s ++ sshStr h.q_c ++ sshStr h.q_s ++ mpint h.k

/-- Server algorithm lists recorded by `processing_server_algorithm` into the
process-wide configuration (`config.algorithm.server_algorithm`); name-lists
kept as raw bytes (`util::vec_u8_to_string` is modelled from the spec as the
identity on the ASCII bytes, never failing). -/
structure ServerAlgo where
  key_exchange_algorithm : List Nat
  public_key_algorithm : List Nat
  c_encryption_algorithm : List Nat
  s_encryption_algorithm : List Nat
  c_mac_algorithm : List Nat
  s_mac_algorithm : List Nat
  c_compression_algorithm : List Nat
  s_compression_algorithm : List Nat
deriving DecidableEq

/-- Modelled from the spec: the KDF inputs captured by
`HASH::new(k, h, session_id)` — `K_X = HASH(K || H || X || session_id)`.
The claims are about which values reach the three positions, so the record
stores the inputs of the derivation. -/
structure HASHKeys where
  k : List Nat
  h : List Nat
  session_id : List Nat
deriving DecidableEq

/-- Environment: the external collaborators the two source files call
(crypto primitives, key-exchange object, configuration constants).  They are
parameters of the model; the claims quantify over them or pick concrete
instances. -/
structure Env where
  /-- Digest used in `hash::digest(hash_type, bytes)`. -/
  digest : List Nat → List Nat
  /-- Signature verifier `signature.verify_signature(k_s, session_id, sig)`. -/
  verify : List Nat → List Nat → List Nat → Except SshErrorKind Bool
  /-- Ephemeral public key `key_exchange::get().get_public_key()`. -/
  pubKey : List Nat
  /-- Shared secret `key_exchange::get().get_shared_secret(qs)`. -/
  sharedSecret : List Nat → Except SshErrorKind (List Nat)
  /-- Random cookie `util::cookie()` of the client KEXINIT. -/
  cookie : List Nat
  /-- Client algorithm name-lists `config.algorithm.client_algorithm.as_i()`. -/
  clientAlgos : List Nat
  /-- Client version banner bytes (`config.version.client_version`). -/
  clientVersion : List Nat
  /-- Server version banner bytes (`config.version.server_version`). -/
  serverVersion : List Nat
  /-- Result of `config.algorithm.matching_algorithm()`: tags for the chosen
  key-exchange and signature objects. -/
  matching : Except SshErrorKind (Nat × Nat)

/-- Combined mutable state of a session: the `Kex` struct (`session_id`, `h`,
the chosen `dh` and `signature` objects as tags), the process-wide encryption
slots (`IS_ENCRYPT`, the installed key of `encryption::update_encryption_key`),
the process-wide server-algorithm configuration, and the `Channel` fields
(`remote_close`, `local_close`, and the `WindowSize` fields reached through
`Deref`: `client_channel`, `server_channel`, `remote_window`). -/
structure St where
  session_id : List Nat
  h : Htr
  dh : Nat
  signatureTag : Nat
  isEncrypt : Bool
  encKey : Option HASHKeys
  serverAlgo : ServerAlgo
  remote_close : Bool
  local_close : Bool
  client_channel : Nat
  server_channel : Nat
  remote_window : Nat
deriving DecidableEq

/-- Write log: the sequence of payloads passed to `client.write`. -/
abbrev Writes := List (List Nat)

/-- Input stream: the flattened sequence of messages produced by
`client.read()` batches. -/
abbrev Input := List (List Nat)

/-- Embedding of `processing_server_algorithm` (kex.rs:151): skip the message
code and the 16-byte cookie, then read the eight server name-lists into the
configuration.  With the byte codec totalized and string conversion modelled
as never failing, the function always returns Ok. -/
def processing_server_algorithm (st : St) (data0 : List Nat) : Outcome Unit × St :=
  let d1 := skipBytes 16 (getU8 data0).2
  let p1 := getU8s d1
  let p2 := getU8s p1.2
  let p3 := getU8s p2.2
  let p4 := getU8s p3.2
  let p5 := getU8s p4.2
  let p6 := getU8s p5.2
  let p7 := getU8s p6.2
  let p8 := getU8s p7.2
  (.ok (), { st with serverAlgo := ⟨p1.1, p2.1, p3.1, p4.1, p5.1, p6.1, p7.1, p8.1⟩ })

/-- Embedding of `Kex::send_algorithm` (kex.rs:35): if encryption is on, turn
it off and clear the installed key; build the client KEXINIT (code, cookie,
client name-lists, two empty strings, `first_kex_packet_follows = false`,
reserved u32 0); record it as I_C; write it. -/
def Kex.send_algorithm (env : Env) (st : St) : Outcome Unit × St × Writes :=
  let st := if st.isEncrypt then { st with isEncrypt := false, encKey := none } else st
  let data : List Nat :=
    [SSH_MSG_KEXINIT] ++ env.cookie ++ env.clientAlgos ++
    sshStr [] ++ sshStr [] ++ [0] ++ u32be 0
  let st := { st with h := { st.h with i_c := data } }
  (.ok (), st, [data])

/-- Embedding of `Kex::receive_algorithm` (kex.rs:58): loop over incoming
messages, skipping empty ones, until one whose first byte (peeked, not
consumed) is KEXINIT; record the whole buffer as I_S and parse it.  Returns
the outcome, the state, and the unprocessed remainder of the input. -/
def Kex.receive_algorithm (env : Env) (st : St) : Input → Outcome Unit × St × Input
  | [] => (.pending, st, [])
  | m :: rest =>
    match m with
    | [] => Kex.receive_algorithm env st rest
    | c :: _ =>
      if c = SSH_MSG_KEXINIT then
        let st := { st with h := { st.h with i_s := m } }
        let (o, st) := processing_server_algorithm st m
        (o, st, rest)
      else
        Kex.receive_algorithm env st rest

/-- Embedding of `Kex::send_qc` (kex.rs:77): write ECDH_INIT carrying the
ephemeral public key. -/
def Kex.send_qc (env : Env) : Writes :=
  [[SSH_MSG_KEX_ECDH_INIT] ++ sshStr env.pubKey]

/-- Embedding of `Kex::generate_session_id_and_get_signature` (kex.rs:131):
read K_S and Q_S from the reply, record K_S, Q_C, Q_S, compute the shared
secret K, record it, hash the transcript and assign it to `session_id`, then
extract the raw signature bytes from the signature blob. -/
def Kex.generate_session_id_and_get_signature (env : Env) (st : St) (data : List Nat) :
    Outcome (List Nat) × St :=
  let ks := (getU8s data).1
  let d1 := (getU8s data).2
  let st := { st with h := { st.h with k_s := ks } }
  let qs := (getU8s d1).1
  let d2 := (getU8s d1).2
  let st := { st with h := { st.h with q_c := env.pubKey } }
  let st := { st with h := { st.h with q_s := qs } }
  match env.sharedSecret qs with
  | .error e => (.err e, st)
  | .ok vec =>
    let st := { st with h := { st.h with k := vec } }
    let hb := Htr.asBytes st.h
    let st := { st with session_id := env.digest hb }
    let hsig := (getU8s d2).1
    let hd := (getU8s hsig).2
    let signature := (getU8s hd).1
    (.ok signature, st)

/-- Embedding of `Kex::new_keys` (kex.rs:117): write NEWKEYS, derive the keys
from `(h.k, session_id, session_id)`, set the encryption flag and install the
key. -/
def Kex.new_keys (st : St) : Outcome Unit × St × Writes :=
  let data : List Nat := [SSH_MSG_NEWKEYS]
  let hk : HASHKeys := ⟨st.h.k, st.session_id, st.session_id⟩
  (.ok (), { st with isEncrypt := true, encKey := some hk }, [data])

/-- Embedding of `Kex::verify_signature_and_new_keys` (kex.rs:86): loop over
incoming messages, skipping empty ones; on ECDH_REPLY generate the session id,
verify the host-key signature over it and fail with `SignatureError` when the
verifier answers false; on NEWKEYS send the client NEWKEYS, install the keys
and return Ok; ignore other codes. -/
def Kex.verify_signature_and_new_keys (env : Env) (st : St) :
    Input → Outcome Unit × St × Writes × Input
  | [] => (.pending, st, [], [])
  | m :: rest =>
    match m with
    | [] => Kex.verify_signature_and_new_keys env st rest
    | code :: body =>
      if code = SSH_MSG_KEX_ECDH_REPLY then
        match Kex.generate_session_id_and_get_signature env st body with
        | (.err e, st) => (.err e, st, [], rest)
        | (.pending, st) => (.pending, st, [], rest)
        | (.ok sig, st) =>
          match env.verify st.h.k_s st.session_id sig with
          | .error e => (.err e, st, [], rest)
          | .ok r =>
            if r = false then (.err .SignatureError, st, [], rest)
            else Kex.verify_signature_and_new_keys env st rest
      else if code = SSH_MSG_NEWKEYS then
        let (o, st, w) := Kex.new_keys st
        (o, st, w, rest)
      else
        Kex.verify_signature_and_new_keys env st rest

/-- Embedding of `Channel::send_close` (channel.rs:127): nothing when the
channel is already locally closed; otherwise write one CHANNEL_CLOSE carrying
the server channel id and set `local_close`. -/
def Channel.send_close (st : St) : Outcome Unit × St × Writes :=
  if st.local_close then (.ok (), st, [])
  else (.ok (), { st with local_close := true },
        [[SSH_MSG_CHANNEL_CLOSE] ++ u32be st.server_channel])

mutual

/-- Embedding of `Channel::other` (channel.rs:36): the general incoming-message
handler.  `fuel` bounds the nested loop iterations of the close handshake it
can trigger; exhausted fuel is reported as `pending`, like a transport that
never delivers. -/
def Channel.other (env : Env) (fuel : Nat) (st : St) (code : Nat)
    (result : List Nat) (input : Input) : Outcome Unit × St × Writes × Input :=
  match fuel with
  | 0 => (.pending, st, [], input)
  | f + 1 =>
    if code = SSH_MSG_GLOBAL_REQUEST then
      (.ok (), st, [[SSH_MSG_REQUEST_FAILURE]], input)
    else if code = SSH_MSG_KEXINIT then
      let data := code :: result
      let st := { st with h := { st.h with i_s := data } }
      match processing_server_algorithm st data with
      | (.err e, st) => (.err e, st, [], input)
      | (.pending, st) => (.pending, st, [], input)
      | (.ok _, st) =>
        match Kex.send_algorithm env st with
        | (.err e, st, w1) => (.err e, st, w1, input)
        | (.pending, st, w1) => (.pending, st, w1, input)
        | (.ok _, st, w1) =>
          match env.matching with
          | .error e => (.err e, st, w1, input)
          | .ok (dh, sign) =>
            let st := { st with dh := dh, signatureTag := sign }
            let st := { st with h := { st.h with v_c := env.clientVersion } }
            let st := { st with h := { st.h with v_s := env.serverVersion } }
            (.ok (), st, w1 ++ Kex.send_qc env, input)
    else if code = SSH_MSG_KEX_ECDH_REPLY then
      match Kex.generate_session_id_and_get_signature env st result with
      | (.err e, st) => (.err e, st, [], input)
      | (.pending, st) => (.pending, st, [], input)
      | (.ok sig, st) =>
        match env.verify st.h.k_s st.session_id sig with
        | .error e => (.err e, st, [], input)
        | .ok r =>
          if r = false then (.err .SignatureError, st, [], input)
          else (.ok (), st, [], input)
    else if code = SSH_MSG_NEWKEYS then
      let (o, st, w) := Kex.new_keys st
      (o, st, w, input)
    else if code = SSH_MSG_CHANNEL_WINDOW_ADJUST then
      let rws := (getU32 (getU32 result).2).1
      (.ok (), { st with remote_window := min (st.remote_window + rws) (2 ^ 32 - 1) },
       [], input)
    else if code = SSH_MSG_CHANNEL_EOF then (.ok (), st, [], input)
    else if code = SSH_MSG_CHANNEL_REQUEST then (.ok (), st, [], input)
    else if code = SSH_MSG_CHANNEL_SUCCESS then (.ok (), st, [], input)
    else if code = SSH_MSG_CHANNEL_FAILURE then
      (.err .ChannelFailureError, st, [], input)
    else if code = SSH_MSG_CHANNEL_CLOSE then
      let cc := (getU32 result).1
      if cc = st.client_channel then
        let st := { st with remote_close := true }
        match Channel.close env f st input with
        | (.err e, st, w, rem) => (.err e, st, w, rem)
        | (.pending, st, w, rem) => (.pending, st, w, rem)
        | (.ok _, st, w, rem) => (.ok (), st, w, rem)
      else (.ok (), st, [], input)
    else (.ok (), st, [], input)

/-- Embedding of `Channel::close` (channel.rs:121): `send_close` then
`receive_close`. -/
def Channel.close (env : Env) (fuel : Nat) (st : St) (input : Input) :
    Outcome Unit × St × Writes × Input :=
  match fuel with
  | 0 => (.pending, st, [], input)
  | f + 1 =>
    match Channel.send_close st with
    | (.err e, st, w1) => (.err e, st, w1, input)
    | (.pending, st, w1) => (.pending, st, w1, input)
    | (.ok _, st, w1) =>
      let (o, st, w2, rem) := Channel.receive_close env f st input
      (o, st, w1 ++ w2, rem)

/-- Embedding of `Channel::receive_close` (channel.rs:138): return Ok at once
when the remote side is already closed, otherwise enter the read loop. -/
def Channel.receive_close (env : Env) (fuel : Nat) (st : St) (input : Input) :
    Outcome Unit × St × Writes × Input :=
  match fuel with
  | 0 => (.pending, st, [], input)
  | f + 1 =>
    if st.remote_close then (.ok (), st, [], input)
    else Channel.receive_close_loop env f st input

/-- Embedding of the read loop of `Channel::receive_close` (channel.rs:140):
skip empty messages; a CHANNEL_CLOSE for this channel sets `remote_close` and
returns Ok; a CHANNEL_CLOSE for another channel is dropped; every other code
is dispatched to `Channel.other`, whose error aborts the loop. -/
def Channel.receive_close_loop (env : Env) (fuel : Nat) (st : St) (input : Input) :
    Outcome Unit × St × Writes × Input :=
  match fuel with
  | 0 => (.pending, st, [], input)
  | f + 1 =>
    match input with
    | [] => (.pending, st, [], [])
    | m :: rest =>
      match m with
      | [] => Channel.receive_close_loop env f st rest
      | code :: body =>
        if code = SSH_MSG_CHANNEL_CLOSE then
          let cc := (getU32 body).1
          if cc = st.client_channel then
            (.ok (), { st with remote_close := true }, [], rest)
          else Channel.receive_close_loop env f st rest
        else
          match Channel.other env f st code body rest with
          | (.ok _, st, w, rem) =>
            match Channel.receive_close_loop env f st rem with
            | (o, st, w2, rem2) => (o, st, w ++ w2, rem2)
          | (.err e, st, w, rem) => (.err e, st, w, rem)
          | (.pending, st, w, rem) => (.pending, st, w, rem)

end

/-- Reading of the close-handshake drain that follows the spec's words: every
non-matching message, a foreign CHANNEL_CLOSE included, is dispatched to the
general handler `Channel.other`; used to compare against the source's loop,
which drops foreign CHANNEL_CLOSE messages itself. -/
def Channel.receive_close_spec_loop (env : Env) (fuel : Nat) (st : St) (input : Input) :
    Outcome Unit × St × Writes × Input :=
  match fuel with
  | 0 => (.pending, st, [], input)
  | f + 1 =>
    match input with
    | [] => (.pending, st, [], [])
    | m :: rest =>
      match m with
      | [] => Channel.receive_close_spec_loop env f st rest
      | code :: body =>
        if code = SSH_MSG_CHANNEL_CLOSE ∧ (getU32 body).1 = st.client_channel then
          (.ok (), { st with remote_close := true }, [], rest)
        else
          match Channel.other env f st code body rest with
          | (.ok _, st, w, rem) =>
            match Channel.receive_close_spec_loop env f st rem with
            | (o, st, w2, rem2) => (o, st, w ++ w2, rem2)
          | (.err e, st, w, rem) => (.err e, st, w, rem)
          | (.pending, st, w, rem) => (.pending, st, w, rem)

/-- Spec-worded `receive_close` built on the spec-worded loop. -/
def Channel.receive_close_spec (env : Env) (fuel : Nat) (st : St) (input : Input) :
    Outcome Unit × St × Writes × Input :=
  match fuel with
  | 0 => (.pending, st, [], input)
  | f + 1 =>
    if st.remote_close then (.ok (), st, [], input)
    else Channel.receive_close_spec_loop env f st input

/-- Test whether a raw message is a CHANNEL_CLOSE addressed to channel `cid`. -/
def isMatchingClose (cid : Nat) (m : List Nat) : Bool :=
  match m with
  | [] => false
  | code :: body => code = SSH_MSG_CHANNEL_CLOSE && (getU32 body).1 = cid

/-- Test whether a written message carries the CHANNEL_CLOSE code. -/
def isCloseMsg (m : List Nat) : Bool :=
  match m with
  | [] => false
  | c :: _ => c = SSH_MSG_CHANNEL_CLOSE

/-- Number of CHANNEL_CLOSE messages in a write log. -/
def closeCount (w : Writes) : Nat := (w.filter isCloseMsg).length

/-- Concrete environment for evaluating the model on closed inputs: the digest
is the identity on the transcript bytes and the host-key signature always
verifies. -/
def testEnv : Env where
  digest := fun b => b
  verify := fun _ _ _ => .ok true
  pubKey := [7]
  sharedSecret := fun qs => .ok qs
  cookie := List.replicate 16 0
  clientAlgos := []
  clientVersion := [1]
  serverVersion := [2]
  matching := .ok (0, 0)

/-- Variant of `testEnv` whose host-key verifier answers false. -/
def testEnvBadSig : Env := { testEnv with verify := fun _ _ _ => .ok false }

/-- Fresh session state: empty transcript, encryption off, channel ids 3/5,
both close flags clear. -/
def st0 : St where
  session_id := []
  h := Htr.new
  dh := 0
  signatureTag := 0
  isEncrypt := false
  encKey := none
  serverAlgo := ⟨[], [], [], [], [], [], [], []⟩
  remote_close := false
  local_close := false
  client_channel := 3
  server_channel := 5
  remote_window := 0

/-- Concrete KEX_ECDH_REPLY body: K_S = [9], Q_S = [8], then the signature
blob, itself the string of an algorithm-name string [97] and a signature
string [5]. -/
def replyBody : List Nat :=
  sshStr [9] ++ sshStr [8] ++ sshStr (sshStr [97] ++ sshStr [5])

/-- Concrete server KEXINIT body (after the message code): a 16-byte cookie
followed by eight empty name-lists — 48 zero bytes in all. -/
def kexinitBody : List Nat := List.replicate 48 0

/-- Round trip of the u32 codec: reading four big-endian bytes written for `n`
yields `n` reduced modulo 2^32 and leaves the remainder untouched. -/
theorem getU32_u32be (n : Nat) (r : List Nat) : getU32 (u32be n ++ r) = (n % 2 ^ 32, r) := by
  simp only [u32be, getU32, u32val, List.cons_append, List.nil_append]
  refine Prod.ext ?_ rfl
  show _ % 256 % 256 * 2 ^ 24 + _ % 256 % 256 * 2 ^ 16 + _ % 256 % 256 * 2 ^ 8 + _ % 256 % 256
      = n % 2 ^ 32
  omega

/-- The session id assigned by `generate_session_id_and_get_signature` is the
digest of the transcript as it stands after that exchange. -/
theorem gssig_session_id (env : Env) (st st' : St) (data sig : List Nat)
    (h : Kex.generate_session_id_and_get_signature env st data = (.ok sig, st')) :
    st'.session_id = env.digest (Htr.asBytes st'.h) := by
  unfold Kex.generate_session_id_and_get_signature at h
  dsimp only at h
  rcases hs : env.sharedSecret (getU8s (getU8s data).2).1 with e | vec <;>
    rw [hs] at h <;> dsimp only at h
  · exact absurd (congrArg Prod.fst h) (by simp)
  · simp only [Prod.mk.injEq] at h
    rw [← h.2]

/-- Fields of the state that `generate_session_id_and_get_signature` never
touches: the encryption slots and the channel bookkeeping. -/
theorem gssig_frame (env : Env) (st st' : St) (data : List Nat) (r : Outcome (List Nat))
    (h : Kex.generate_session_id_and_get_signature env st data = (r, st')) :
    st'.isEncrypt = st.isEncrypt ∧ st'.encKey = st.encKey ∧
    st'.remote_close = st.remote_close ∧ st'.local_close = st.local_close ∧
    st'.client_channel = st.client_channel ∧ st'.server_channel = st.server_channel ∧
    st'.remote_window = st.remote_window := by
  unfold Kex.generate_session_id_and_get_signature at h
  dsimp only at h
  rcases hs : env.sharedSecret (getU8s (getU8s data).2).1 with e | vec <;>
    rw [hs] at h <;> dsimp only at h <;> simp only [Prod.mk.injEq] at h <;>
    rw [← h.2] <;> exact ⟨rfl, rfl, rfl, rfl, rfl, rfl, rfl⟩

/-- Whenever `verify_signature_and_new_keys` returns an error, its write log is
empty: in particular no NEWKEYS was ever sent. -/
theorem vsnk_err_no_writes (env : Env) :
    ∀ (input : Input) (st : St) (e : SshErrorKind) (st2 : St) (w : Writes) (rem : Input),
    Kex.verify_signature_and_new_keys env st input = (.err e, st2, w, rem) → w = [] := by
  intro input
  induction input with
  | nil =>
    intro st e st2 w rem h
    unfold Kex.verify_signature_and_new_keys at h
    exact absurd (congrArg Prod.fst h) (by simp)
  | cons m rest ih =>
    intro st e st2 w rem h
    unfold Kex.verify_signature_and_new_keys at h
    match m with
    | [] => exact ih _ _ _ _ _ h
    | code :: body =>
      dsimp only at h
      split at h
      · split at h
        · simp only [Prod.mk.injEq] at h; exact h.2.2.1.symm
        · simp only [Prod.mk.injEq] at h; exact h.2.2.1.symm
        · split at h
          · simp only [Prod.mk.injEq] at h; exact h.2.2.1.symm
          · split at h
            · simp only [Prod.mk.injEq] at h; exact h.2.2.1.symm
            · exact ih _ _ _ _ _ h
      · split at h
        · exact absurd (congrArg Prod.fst h) (by simp [Kex.new_keys])
        · exact ih _ _ _ _ _ h

/-- On an input stream containing no NEWKEYS message,
`verify_signature_and_new_keys` leaves the encryption flag unchanged and
writes nothing. -/
theorem vsnk_no_newkeys (env : Env) :
    ∀ (input : Input) (st : St) (o : Outcome Unit) (st2 : St) (w : Writes) (rem : Input),
    (∀ m ∈ input, m.head? ≠ some SSH_MSG_NEWKEYS) →
    Kex.verify_signature_and_new_keys env st input = (o, st2, w, rem) →
    st2.isEncrypt = st.isEncrypt ∧ w = [] := by
  intro input
  induction input with
  | nil =>
    intro st o st2 w rem _ h
    unfold Kex.verify_signature_and_new_keys at h
    simp only [Prod.mk.injEq] at h
    exact ⟨by rw [← h.2.1], h.2.2.1.symm⟩
  | cons m rest ih =>
    intro st o st2 w rem hno h
    unfold Kex.verify_signature_and_new_keys at h
    match m with
    | [] => exact ih st o st2 w rem (fun x hx => hno x (List.mem_cons_of_mem _ hx)) h
    | code :: body =>
      have hcode : code ≠ SSH_MSG_NEWKEYS := by
        have := hno (code :: body) (List.mem_cons_self _ _)
        simpa using this
      dsimp only at h
      split at h
      · rcases hg : Kex.generate_session_id_and_get_signature env st body with ⟨rg, stG⟩
        rw [hg] at h
        have hfr := gssig_frame env st stG body rg hg
        cases rg with
        | err e =>
          simp only [Prod.mk.injEq] at h
          exact ⟨by rw [← h.2.1, hfr.1], h.2.2.1.symm⟩
        | pending =>
          simp only [Prod.mk.injEq] at h
          exact ⟨by rw [← h.2.1, hfr.1], h.2.2.1.symm⟩
        | ok sig =>
          dsimp only at h
          rcases hv : env.verify stG.h.k_s stG.session_id sig with e | r
          · rw [hv] at h
            simp only [Prod.mk.injEq] at h
            exact ⟨by rw [← h.2.1, hfr.1], h.2.2.1.symm⟩
          · rw [hv] at h
            cases r with
            | false =>
              have h2 : (Outcome.err SshErrorKind.SignatureError, stG, ([] : Writes), rest)
                  = (o, st2, w, rem) := by simpa using h
              simp only [Prod.mk.injEq] at h2
              exact ⟨by rw [← h2.2.1, hfr.1], h2.2.2.1.symm⟩
            | true =>
              have h2 : Kex.verify_signature_and_new_keys env stG rest = (o, st2, w, rem) := by
                simpa using h
              obtain ⟨h1, hw⟩ :=
                ih stG o st2 w rem (fun x hx => hno x (List.mem_cons_of_mem _ hx)) h2
              exact ⟨h1.trans hfr.1, hw⟩
      all_goals
        first
          | exact absurd (by assumption) hcode
          | exact ih st o st2 w rem (fun x hx => hno x (List.mem_cons_of_mem _ hx)) h

/-- The state coming out of `send_algorithm` always has the encryption flag
off, and the installed key has been cleared when the flag was on. -/
theorem send_algorithm_frame (env : Env) (st : St) (r : Outcome Unit) (st' : St) (w : Writes)
    (h : Kex.send_algorithm env st = (r, st', w)) :
    st'.isEncrypt = false ∧ (st.isEncrypt = true → st'.encKey = none) := by
  unfold Kex.send_algorithm at h
  simp only [Prod.mk.injEq] at h
  by_cases hE : st.isEncrypt
  · rw [if_pos hE] at h
    rw [← h.2.1]
    exact ⟨rfl, fun _ => rfl⟩
  · rw [if_neg hE] at h
    rw [← h.2.1]
    exact ⟨by simpa using hE, fun hc => absurd hc hE⟩

/-- C1: for a received KEX_ECDH_REPLY whose host-key signature fails to verify
(the verifier returns false over the exchange hash just assigned to
session_id), `verify_signature_and_new_keys` returns the SignatureError, and
no NEWKEYS message is ever written after the failed verification — in fact
every erroring run of the step has an empty write log. -/
theorem C1_signature_gate
    (env : Env) (st st1 : St) (body sig : List Nat) (rest : Input)
    (hgen : Kex.generate_session_id_and_get_signature env st body = (.ok sig, st1))
    (hver : env.verify st1.h.k_s st1.session_id sig = .ok false) :
    Kex.verify_signature_and_new_keys env st ((SSH_MSG_KEX_ECDH_REPLY :: body) :: rest)
      = (.err .SignatureError, st1, [], rest)
    ∧ (∀ (input : Input) (st' : St) (e : SshErrorKind) (st2 : St) (w : Writes) (rem : Input),
        Kex.verify_signature_and_new_keys env st' input = (.err e, st2, w, rem) → w = []) := by
  refine ⟨?_, fun input st' e st2 w rem h => vsnk_err_no_writes env input st' e st2 w rem h⟩
  simp [Kex.verify_signature_and_new_keys, hgen, hver]

/-- State after parsing the concrete bad-signature reply. -/
def st1c : St := (Kex.generate_session_id_and_get_signature testEnvBadSig st0 replyBody).2

/-- Witness for C1 at the concrete reply whose signature the verifier
rejects. -/
theorem C1_signature_gate_witness :
    Kex.verify_signature_and_new_keys testEnvBadSig st0 [SSH_MSG_KEX_ECDH_REPLY :: replyBody]
      = (.err .SignatureError, st1c, [], []) :=
  (C1_signature_gate testEnvBadSig st0 st1c replyBody [5] [] (by decide) (by rfl)).1

/-- First key exchange driven to completion on concrete input: good reply,
then the server's NEWKEYS. -/
def kexStep1 : Outcome Unit × St × Writes × Input :=
  Kex.verify_signature_and_new_keys testEnv st0
    [SSH_MSG_KEX_ECDH_REPLY :: replyBody, [SSH_MSG_NEWKEYS]]

/-- Session state after the first key exchange. -/
def stFirst : St := kexStep1.2.1

/-- Server-initiated rekey: the KEXINIT arrives through the general handler. -/
def rekeyKexinit : Outcome Unit × St × Writes × Input :=
  Channel.other testEnv 5 stFirst SSH_MSG_KEXINIT kexinitBody []

/-- State after the rekey KEXINIT. -/
def stRekeyA : St := rekeyKexinit.2.1

/-- The rekey's ECDH reply arrives through the general handler. -/
def rekeyReply : Outcome Unit × St × Writes × Input :=
  Channel.other testEnv 5 stRekeyA SSH_MSG_KEX_ECDH_REPLY replyBody []

/-- State after the rekey's ECDH reply: a second exchange hash has been
computed. -/
def stRekeyB : St := rekeyReply.2.1

/-- The rekey's NEWKEYS arrives through the general handler. -/
def rekeyNewkeys : Outcome Unit × St × Writes × Input :=
  Channel.other testEnv 5 stRekeyB SSH_MSG_NEWKEYS [] []

/-- State after the rekey completes. -/
def stRekeyC : St := rekeyNewkeys.2.1

/-- C2 is false on the code: on a concrete two-exchange trace that the model
processes successfully, the session id after the rekey's KEX_ECDH_REPLY
differs from the first exchange hash — session_id is overwritten, not
frozen. -/
theorem C2_session_id_not_frozen_cex :
    kexStep1.1 = .ok () ∧ rekeyKexinit.1 = .ok () ∧ rekeyReply.1 = .ok ()
    ∧ stFirst.session_id = testEnv.digest (Htr.asBytes stFirst.h)
    ∧ stRekeyB.session_id ≠ stFirst.session_id := by decide

/-- C2 (amended): session_id is not frozen to the first exchange hash; it is
reassigned on every key exchange — after any successfully parsed
KEX_ECDH_REPLY, session_id equals the digest of that exchange's transcript
(the current exchange hash). -/
theorem C2_session_id_rekey_amended
    (env : Env) (st st' : St) (data sig : List Nat)
    (h : Kex.generate_session_id_and_get_signature env st data = (.ok sig, st')) :
    st'.session_id = env.digest (Htr.asBytes st'.h) :=
  gssig_session_id env st st' data sig h

/-- State after parsing the concrete good reply from the fresh state. -/
def stGen : St := (Kex.generate_session_id_and_get_signature testEnv st0 replyBody).2

/-- Witness for the amended C2 at the concrete reply. -/
theorem C2_session_id_rekey_amended_witness :
    stGen.session_id = testEnv.digest (Htr.asBytes stGen.h) :=
  C2_session_id_rekey_amended testEnv st0 stGen replyBody [5] (by decide)

/-- Run of the key-exchange step on an input holding only the good reply and
no server NEWKEYS. -/
def kexNoNewkeys : Outcome Unit × St × Writes × Input :=
  Kex.verify_signature_and_new_keys testEnv st0 [SSH_MSG_KEX_ECDH_REPLY :: replyBody]

/-- C3 is false on the code: after the reply is processed and its signature
verifies (the session id has been computed), but before any server NEWKEYS
arrives, the client has written nothing — no client NEWKEYS — and the
outbound direction is still unencrypted: outbound key installation does wait
for the server's NEWKEYS. -/
theorem C3_outbound_waits_cex :
    kexNoNewkeys.1 = .pending
    ∧ kexNoNewkeys.2.1.session_id ≠ []
    ∧ kexNoNewkeys.2.1.isEncrypt = false
    ∧ kexNoNewkeys.2.2.1 = ([] : Writes) := by decide

/-- C3 (amended): the switch is not per direction.  The client sends its
NEWKEYS and installs the keys for both directions at once — a single
encryption flag — only upon processing the server's NEWKEYS; on any input
containing no NEWKEYS message, nothing is written and the encryption flag is
unchanged, so traffic before the server's NEWKEYS is handled under the old
mode. -/
theorem C3_newkeys_switch_amended (env : Env) (st : St) :
    (∀ (body : List Nat) (rest : Input),
      Kex.verify_signature_and_new_keys env st ((SSH_MSG_NEWKEYS :: body) :: rest)
        = (.ok (),
           { st with isEncrypt := true, encKey := some ⟨st.h.k, st.session_id, st.session_id⟩ },
           [[SSH_MSG_NEWKEYS]], rest))
    ∧ (∀ (input : Input) (o : Outcome Unit) (st2 : St) (w : Writes) (rem : Input),
        (∀ m ∈ input, m.head? ≠ some SSH_MSG_NEWKEYS) →
        Kex.verify_signature_and_new_keys env st input = (o, st2, w, rem) →
        st2.isEncrypt = st.isEncrypt ∧ w = []) := by
  constructor
  · intro body rest
    simp [Kex.verify_signature_and_new_keys, Kex.new_keys,
          SSH_MSG_NEWKEYS, SSH_MSG_KEX_ECDH_REPLY]
  · intro input o st2 w rem hno h
    exact vsnk_no_newkeys env input st o st2 w rem hno h

/-- Witness for the amended C3: the concrete NEWKEYS message flips the flag
and writes the client NEWKEYS; a non-NEWKEYS input changes nothing. -/
theorem C3_newkeys_switch_amended_witness :
    Kex.verify_signature_and_new_keys testEnv st0 [[SSH_MSG_NEWKEYS]]
      = (.ok (),
         { st0 with isEncrypt := true, encKey := some ⟨st0.h.k, st0.session_id, st0.session_id⟩ },
         [[SSH_MSG_NEWKEYS]], [])
    ∧ (st0.isEncrypt = st0.isEncrypt ∧ ([] : Writes) = []) :=
  ⟨(C3_newkeys_switch_amended testEnv st0).1 [] [],
   (C3_newkeys_switch_amended testEnv st0).2 [[2]] .pending st0 [] []
     (by decide) (by decide)⟩

/-- A session state with encryption enabled. -/
def stEnc : St := { st0 with isEncrypt := true, encKey := some ⟨[1], [2], [3]⟩ }

/-- Handling a rekey KEXINIT from the encrypted state. -/
def rekeyFromEncrypted : Outcome Unit × St × Writes × Input :=
  Channel.other testEnv 1 stEnc SSH_MSG_KEXINIT kexinitBody []

/-- C4 is false on the code: with encryption enabled, handling a
server-initiated rekey KEXINIT succeeds and turns encryption off again —
the transport returns to cleartext framing until the next NEWKEYS. -/
theorem C4_rekey_clears_encryption_cex :
    stEnc.isEncrypt = true
    ∧ rekeyFromEncrypted.1 = .ok ()
    ∧ rekeyFromEncrypted.2.1.isEncrypt = false
    ∧ rekeyFromEncrypted.2.1.encKey = none := by decide

/-- C4 (amended): handling a server-initiated rekey KEXINIT does return the
transport to cleartext: `send_algorithm` always leaves the encryption flag
off and clears the installed key when the flag was on, so the KEXINIT branch
of the general handler disables encryption; only `new_keys` re-enables it. -/
theorem C4_encryption_cleared_on_rekey_amended (env : Env) (st : St) :
    ((Kex.send_algorithm env st).2.1.isEncrypt = false)
    ∧ (st.isEncrypt = true → (Kex.send_algorithm env st).2.1.encKey = none)
    ∧ (∀ (fuel : Nat) (body : List Nat) (input : Input) (st2 : St) (w : Writes) (rem : Input),
        Channel.other env (fuel + 1) st SSH_MSG_KEXINIT body input = (.ok (), st2, w, rem) →
        st2.isEncrypt = false)
    ∧ ((Kex.new_keys st).2.1.isEncrypt = true) := by
  have hsa := send_algorithm_frame env st (Kex.send_algorithm env st).1
    (Kex.send_algorithm env st).2.1 (Kex.send_algorithm env st).2.2 rfl
  refine ⟨hsa.1, hsa.2, ?_, rfl⟩
  intro fuel body input st2 w rem h
  unfold Channel.other at h
  rw [if_neg (by decide), if_pos rfl] at h
  dsimp only at h
  repeat' split at h
  all_goals try simp only [Prod.mk.injEq, eq_self_iff_true, true_and] at h
  all_goals
    first
      | exact Outcome.noConfusion h.1
      | (rw [← h.1]
         dsimp only
         exact (send_algorithm_frame _ _ _ _ _ (by assumption)).1)

/-- Witness for the amended C4 at the concrete encrypted state and rekey
KEXINIT. -/
theorem C4_encryption_cleared_on_rekey_amended_witness :
    (Kex.send_algorithm testEnv stEnc).2.1.isEncrypt = false
    ∧ rekeyFromEncrypted.2.1.isEncrypt = false :=
  ⟨(C4_encryption_cleared_on_rekey_amended testEnv stEnc).1,
   (C4_encryption_cleared_on_rekey_amended testEnv stEnc).2.2.1 0 kexinitBody []
     rekeyFromEncrypted.2.1 rekeyFromEncrypted.2.2.1 rekeyFromEncrypted.2.2.2 (by decide)⟩

/-- C5 is false on the code: on the concrete rekey trace, the keys installed
by the second NEWKEYS carry the second exchange hash in BOTH the H position
and the session-id position of the KDF input: the fourth input equals the
current exchange hash and differs from the first-KEX session id, and the H
and session-id inputs never differ. -/
theorem C5_kdf_fourth_input_cex :
    rekeyNewkeys.1 = .ok ()
    ∧ stRekeyC.encKey = some ⟨stRekeyB.h.k, stRekeyB.session_id, stRekeyB.session_id⟩
    ∧ stRekeyB.session_id ≠ stFirst.session_id
    ∧ stFirst.session_id = testEnv.digest (Htr.asBytes stFirst.h)
    ∧ stRekeyC.encKey.map HASHKeys.h = stRekeyC.encKey.map HASHKeys.session_id := by decide

/-- C5 (amended): the keys installed at NEWKEYS are derived from
`(K, session_id, session_id)` where `session_id` at that moment equals the
current exchange hash: the second KDF input is the current exchange hash as
claimed, but the fourth input is that same current exchange hash — not the
frozen first-KEX session id (the two inputs never differ). -/
theorem C5_kdf_inputs_amended
    (env : Env) (st st1 : St) (body sig nk : List Nat) (rest : Input)
    (hgen : Kex.generate_session_id_and_get_signature env st body = (.ok sig, st1))
    (hver : env.verify st1.h.k_s st1.session_id sig = .ok true) :
    Kex.verify_signature_and_new_keys env st
        ((SSH_MSG_KEX_ECDH_REPLY :: body) :: (SSH_MSG_NEWKEYS :: nk) :: rest)
      = (.ok (),
         { st1 with isEncrypt := true, encKey := some ⟨st1.h.k, st1.session_id, st1.session_id⟩ },
         [[SSH_MSG_NEWKEYS]], rest)
    ∧ st1.session_id = env.digest (Htr.asBytes st1.h) := by
  refine ⟨?_, gssig_session_id env st st1 body sig hgen⟩
  simp [Kex.verify_signature_and_new_keys, Kex.new_keys, hgen, hver,
        SSH_MSG_NEWKEYS, SSH_MSG_KEX_ECDH_REPLY]

/-- Witness for the amended C5 at the concrete reply and NEWKEYS. -/
theorem C5_kdf_inputs_amended_witness :
    Kex.verify_signature_and_new_keys testEnv st0
        ((SSH_MSG_KEX_ECDH_REPLY :: replyBody) :: (SSH_MSG_NEWKEYS :: []) :: [])
      = (.ok (),
         { stGen with isEncrypt := true, encKey := some ⟨stGen.h.k, stGen.session_id, stGen.session_id⟩ },
         [[SSH_MSG_NEWKEYS]], [])
    ∧ stGen.session_id = testEnv.digest (Htr.asBytes stGen.h) :=
  C5_kdf_inputs_amended testEnv st0 stGen replyBody [5] [] [] (by decide) (by rfl)

/-- The channel bookkeeping that `send_algorithm` never touches, and the fact
that it never writes a CHANNEL_CLOSE message. -/
theorem send_algorithm_channel_frame (env : Env) (st : St) (r : Outcome Unit) (st' : St)
    (w : Writes) (h : Kex.send_algorithm env st = (r, st', w)) :
    st'.remote_close = st.remote_close ∧ st'.local_close = st.local_close ∧
    st'.client_channel = st.client_channel ∧ w.all (fun m => !isCloseMsg m) = true := by
  unfold Kex.send_algorithm at h
  dsimp only at h
  simp only [Prod.mk.injEq] at h
  obtain ⟨-, h2, h3⟩ := h
  rw [← h2, ← h3]
  by_cases hE : st.isEncrypt <;>
    simp [hE, isCloseMsg, SSH_MSG_KEXINIT, SSH_MSG_CHANNEL_CLOSE]

/-- The general handler on any code other than CHANNEL_CLOSE preserves the
close flags and the channel id, consumes no input, and never writes a
CHANNEL_CLOSE message. -/
theorem other_nonclose_frame (env : Env) :
    ∀ (fuel : Nat) (st : St) (code : Nat) (body : List Nat) (input : Input)
      (o : Outcome Unit) (st2 : St) (w : Writes) (rem : Input),
    code ≠ SSH_MSG_CHANNEL_CLOSE →
    Channel.other env fuel st code body input = (o, st2, w, rem) →
    st2.remote_close = st.remote_close ∧ st2.local_close = st.local_close ∧
    st2.client_channel = st.client_channel ∧ rem = input ∧
    w.all (fun m => !isCloseMsg m) = true := by
  intro fuel st code body input o st2 w rem hc h
  match fuel with
  | 0 =>
    unfold Channel.other at h
    simp only [Prod.mk.injEq] at h
    obtain ⟨-, h2, h3, h4⟩ := h
    subst h2; subst h3; subst h4
    exact ⟨rfl, rfl, rfl, rfl, rfl⟩
  | f + 1 =>
    unfold Channel.other at h
    dsimp only [processing_server_algorithm, Kex.new_keys] at h
    repeat' split at h
    all_goals
      try (simp only [Prod.mk.injEq] at h; obtain ⟨h1, h2, h3, h4⟩ := h;
           subst h2; subst h3; subst h4)
    all_goals
      first
        | exact absurd (by assumption) hc
        | exact ⟨rfl, rfl, rfl, rfl, by decide⟩
        | (have hfr := gssig_frame _ _ _ _ _ (by assumption)
           exact ⟨hfr.2.2.1, hfr.2.2.2.1, hfr.2.2.2.2.1, rfl, rfl⟩)
        | (have hch := send_algorithm_channel_frame _ _ _ _ _ (by assumption)
           refine ⟨hch.1, hch.2.1, hch.2.2.1, rfl, ?_⟩
           first
             | exact hch.2.2.2
             | (rw [List.all_append, hch.2.2.2]
                simp [Kex.send_qc, isCloseMsg, SSH_MSG_KEX_ECDH_INIT,
                      SSH_MSG_CHANNEL_CLOSE]))

/-- The source's drain loop and the spec-worded drain loop (which dispatches
every non-matching message, foreign CHANNEL_CLOSE included, to the general
handler) are extensionally equal: a foreign CHANNEL_CLOSE is a no-op on both
routes. -/
theorem receive_close_loop_eq_spec (env : Env) :
    ∀ (fuel : Nat) (st : St) (input : Input),
    Channel.receive_close_loop env fuel st input
      = Channel.receive_close_spec_loop env fuel st input := by
  intro fuel
  induction fuel with
  | zero => intro st input; rfl
  | succ f ih =>
    intro st input
    match input with
    | [] => rfl
    | [] :: rest => exact ih st rest
    | (code :: body) :: rest =>
      unfold Channel.receive_close_loop Channel.receive_close_spec_loop
      dsimp only
      by_cases h97 : code = SSH_MSG_CHANNEL_CLOSE
      · by_cases hcc : (getU32 body).1 = st.client_channel
        · rw [if_pos h97, if_pos hcc, if_pos ⟨h97, hcc⟩]
        · rw [if_pos h97, if_neg hcc, if_neg (fun hand => hcc hand.2)]
          subst h97
          cases f with
          | zero => rfl
          | succ g =>
            unfold Channel.other
            dsimp only
            rw [if_neg (by decide), if_neg (by decide), if_neg (by decide),
                if_neg (by decide), if_neg (by decide), if_neg (by decide),
                if_neg (by decide), if_neg (by decide), if_neg (by decide),
                if_pos rfl, if_neg hcc]
            dsimp only
            rw [← ih st rest]
            rcases hl : Channel.receive_close_loop env (g + 1) st rest with ⟨o2, st3, w2, rem2⟩
            try rw [hl]
            simp
      · rw [if_neg h97, if_neg (fun hand => h97 hand.1)]
        rcases ho : Channel.other env f st code body rest with ⟨o2, st2, w2, rem2⟩
        try rw [ho]
        cases o2 <;> dsimp only
        rw [← ih st2 rem2]

/-- Whenever the drain loop returns Ok, it has just set `remote_close`. -/
theorem receive_close_loop_ok_remote (env : Env) :
    ∀ (fuel : Nat) (st : St) (input : Input) (st' : St) (w : Writes) (rem : Input),
    Channel.receive_close_loop env fuel st input = (.ok (), st', w, rem) →
    st'.remote_close = true := by
  intro fuel
  induction fuel with
  | zero =>
    intro st input st' w rem h
    unfold Channel.receive_close_loop at h
    exact absurd (congrArg (fun p => p.1) h) (by simp)
  | succ f ih =>
    intro st input st' w rem h
    unfold Channel.receive_close_loop at h
    match input with
    | [] => exact absurd (congrArg (fun p => p.1) h) (by simp)
    | [] :: rest => exact ih st rest st' w rem h
    | (code :: body) :: rest =>
      dsimp only at h
      split at h
      · split at h
        · simp only [Prod.mk.injEq] at h
          rw [← h.2.1]
        · exact ih st rest st' w rem h
      · split at h
        · rename_i a2 st2 w2 rem2 heq
          rcases hl : Channel.receive_close_loop env f st2 rem2 with ⟨o3, st3, w3, rem3⟩
          try rw [hl] at h
          dsimp only at h
          simp only [Prod.mk.injEq] at h
          rw [h.1, h.2.1] at hl
          exact ih st2 rem2 st' w3 rem3 hl
        · exact absurd (congrArg (fun p => p.1) h) (by simp)
        · exact absurd (congrArg (fun p => p.1) h) (by simp)

/-- With the channel already locally closed, the drain loop keeps it locally
closed and never writes a CHANNEL_CLOSE message. -/
theorem receive_close_loop_local (env : Env) :
    ∀ (fuel : Nat) (st : St) (input : Input) (o : Outcome Unit) (st' : St) (w : Writes)
      (rem : Input), st.local_close = true →
    Channel.receive_close_loop env fuel st input = (o, st', w, rem) →
    st'.local_close = true ∧ w.all (fun m => !isCloseMsg m) = true := by
  intro fuel
  induction fuel with
  | zero =>
    intro st input o st' w rem hl h
    unfold Channel.receive_close_loop at h
    simp only [Prod.mk.injEq] at h
    exact ⟨by rw [← h.2.1]; exact hl, by rw [← h.2.2.1]; rfl⟩
  | succ f ih =>
    intro st input o st' w rem hl h
    unfold Channel.receive_close_loop at h
    match input with
    | [] =>
      simp only [Prod.mk.injEq] at h
      exact ⟨by rw [← h.2.1]; exact hl, by rw [← h.2.2.1]; rfl⟩
    | [] :: rest => exact ih st rest o st' w rem hl h
    | (code :: body) :: rest =>
      dsimp only at h
      split at h
      · split at h
        · simp only [Prod.mk.injEq] at h
          exact ⟨by rw [← h.2.1]; exact hl, by rw [← h.2.2.1]; rfl⟩
        · exact ih st rest o st' w rem hl h
      · rename_i hnc
        split at h
        · rename_i a2 st2 w2 rem2 heq
          have hfr := other_nonclose_frame env f st code body rest _ _ _ _ hnc heq
          rcases hl3 : Channel.receive_close_loop env f st2 rem2 with ⟨o3, st3, w3, rem3⟩
          try rw [hl3] at h
          dsimp only at h
          simp only [Prod.mk.injEq] at h
          obtain ⟨hfr1, hfr2, hfr3, hfr4, hfr5⟩ := hfr
          have hcont := ih st2 rem2 o3 st3 w3 rem3 (hfr2.trans hl) hl3
          refine ⟨by rw [← h.2.1]; exact hcont.1, ?_⟩
          rw [← h.2.2.1, List.all_append, hfr5, hcont.2]
          rfl
        · rename_i e2 st2 w2 rem2 heq
          have hfr := other_nonclose_frame env f st code body rest _ _ _ _ hnc heq
          simp only [Prod.mk.injEq] at h
          exact ⟨by rw [← h.2.1]; exact hfr.2.1.trans hl, by rw [← h.2.2.1]; exact hfr.2.2.2.2⟩
        · rename_i st2 w2 rem2 heq
          have hfr := other_nonclose_frame env f st code body rest _ _ _ _ hnc heq
          simp only [Prod.mk.injEq] at h
          exact ⟨by rw [← h.2.1]; exact hfr.2.1.trans hl, by rw [← h.2.2.1]; exact hfr.2.2.2.2⟩

/-- Without a CHANNEL_CLOSE addressed to this channel in the input, the drain
loop cannot return Ok. -/
theorem receive_close_loop_no_matching (env : Env) :
    ∀ (fuel : Nat) (st : St) (input : Input) (o : Outcome Unit) (st' : St) (w : Writes)
      (rem : Input),
    (∀ m ∈ input, isMatchingClose st.client_channel m = false) →
    Channel.receive_close_loop env fuel st input = (o, st', w, rem) →
    o ≠ .ok () := by
  intro fuel
  induction fuel with
  | zero =>
    intro st input o st' w rem hno h
    unfold Channel.receive_close_loop at h
    intro hk
    rw [hk] at h
    exact absurd (congrArg (fun p => p.1) h) (by simp)
  | succ f ih =>
    intro st input o st' w rem hno h
    unfold Channel.receive_close_loop at h
    match input with
    | [] =>
      intro hk
      rw [hk] at h
      exact absurd (congrArg (fun p => p.1) h) (by simp)
    | [] :: rest =>
      exact ih st rest o st' w rem (fun x hx => hno x (List.mem_cons_of_mem _ hx)) h
    | (code :: body) :: rest =>
      dsimp only at h
      split at h
      · rename_i hcode
        split at h
        · rename_i hcc
          have := hno (code :: body) (List.mem_cons_self _ _)
          rw [isMatchingClose] at this
          simp [hcode, hcc] at this
        · exact ih st rest o st' w rem (fun x hx => hno x (List.mem_cons_of_mem _ hx)) h
      · rename_i hnc
        split at h
        · rename_i a2 st2 w2 rem2 heq
          have hfr := other_nonclose_frame env f st code body rest _ _ _ _ hnc heq
          rcases hl3 : Channel.receive_close_loop env f st2 rem2 with ⟨o3, st3, w3, rem3⟩
          try rw [hl3] at h
          dsimp only at h
          simp only [Prod.mk.injEq] at h
          rw [← h.1]
          refine ih st2 rem2 o3 st3 w3 rem3 ?_ hl3
          rw [hfr.2.2.1, hfr.2.2.2.1]
          exact fun x hx => hno x (List.mem_cons_of_mem _ hx)
        · rename_i e2 st2 w2 rem2 heq
          simp only [Prod.mk.injEq] at h
          rw [← h.1]
          simp
        · rename_i st2 w2 rem2 heq
          simp only [Prod.mk.injEq] at h
          rw [← h.1]
          simp

/-- Wrapper of `receive_close_loop_ok_remote` at the `receive_close` level. -/
theorem receive_close_ok_remote (env : Env) (fuel : Nat) (st : St) (input : Input)
    (st' : St) (w : Writes) (rem : Input)
    (h : Channel.receive_close env fuel st input = (.ok (), st', w, rem)) :
    st'.remote_close = true := by
  match fuel with
  | 0 =>
    unfold Channel.receive_close at h
    exact absurd (congrArg (fun p => p.1) h) (by simp)
  | f + 1 =>
    unfold Channel.receive_close at h
    try dsimp only at h
    split at h
    · simp only [Prod.mk.injEq] at h
      rw [← h.2.1]
      assumption
    · exact receive_close_loop_ok_remote env f st input st' w rem h

/-- Wrapper of `receive_close_loop_local` at the `receive_close` level. -/
theorem receive_close_local (env : Env) (fuel : Nat) (st : St) (input : Input)
    (o : Outcome Unit) (st' : St) (w : Writes) (rem : Input) (hl : st.local_close = true)
    (h : Channel.receive_close env fuel st input = (o, st', w, rem)) :
    st'.local_close = true ∧ w.all (fun m => !isCloseMsg m) = true := by
  match fuel with
  | 0 =>
    unfold Channel.receive_close at h
    simp only [Prod.mk.injEq] at h
    exact ⟨by rw [← h.2.1]; exact hl, by rw [← h.2.2.1]; rfl⟩
  | f + 1 =>
    unfold Channel.receive_close at h
    try dsimp only at h
    split at h
    · simp only [Prod.mk.injEq] at h
      exact ⟨by rw [← h.2.1]; exact hl, by rw [← h.2.2.1]; rfl⟩
    · exact receive_close_loop_local env f st input o st' w rem hl h

/-- A write log that contains no CHANNEL_CLOSE has close count zero. -/
theorem closeCount_zero (w : Writes) (h : w.all (fun m => !isCloseMsg m) = true) :
    closeCount w = 0 := by
  induction w with
  | nil => rfl
  | cons m t ih =>
    simp only [List.all_cons, Bool.and_eq_true, Bool.not_eq_true'] at h
    have ht := ih h.2
    simp [closeCount, List.filter_cons, h.1] at ht ⊢
    exact ht

/-- Close counts add over concatenation of write logs. -/
theorem closeCount_append (a b : Writes) : closeCount (a ++ b) = closeCount a + closeCount b := by
  simp [closeCount, List.filter_append]

/-- C6: close is idempotent.  `send_close` writes nothing and returns Ok when
`local_close` already holds, and otherwise writes exactly one CHANNEL_CLOSE
and sets `local_close`; after a first successful `close`, a second `close`
returns the same Ok with the same state, writes nothing, reads nothing, and
across both calls exactly one CHANNEL_CLOSE is written. -/
theorem C6_close_idempotent (env : Env) :
    (∀ st : St, st.local_close = true → Channel.send_close st = (.ok (), st, []))
    ∧ (∀ st : St, st.local_close = false →
        Channel.send_close st
          = (.ok (), { st with local_close := true },
             [[SSH_MSG_CHANNEL_CLOSE] ++ u32be st.server_channel]))
    ∧ (∀ (fuel fuel2 : Nat) (st : St) (input : Input) (st' : St) (w : Writes) (rem : Input),
        st.local_close = false →
        Channel.close env fuel st input = (.ok (), st', w, rem) →
        Channel.close env (fuel2 + 2) st' rem = (.ok (), st', [], rem) ∧ closeCount w = 1) := by
  refine ⟨?_, ?_, ?_⟩
  · intro st hl
    unfold Channel.send_close
    rw [if_pos hl]
  · intro st hl
    unfold Channel.send_close
    rw [if_neg (by simp [hl])]
  · intro fuel fuel2 st input st' w rem hl hclose
    match fuel with
    | 0 =>
      unfold Channel.close at hclose
      exact absurd (congrArg (fun p => p.1) hclose) (by simp)
    | f + 1 =>
      unfold Channel.close at hclose
      try dsimp only at hclose
      unfold Channel.send_close at hclose
      rw [if_neg (by simp [hl])] at hclose
      dsimp only at hclose
      rcases hr : Channel.receive_close env f { st with local_close := true } input
        with ⟨o2, st2, w2, rem2⟩
      try rw [hr] at hclose
      dsimp only at hclose
      simp only [Prod.mk.injEq] at hclose
      obtain ⟨h1, h2, h3, h4⟩ := hclose
      rw [h1, h2] at hr
      have hrem := receive_close_ok_remote env f _ input st' w2 rem2 hr
      have hloc := receive_close_local env f _ input (.ok ()) st' w2 rem2 rfl hr
      constructor
      · unfold Channel.close
        dsimp only
        unfold Channel.send_close
        rw [if_pos hloc.1]
        try dsimp only
        unfold Channel.receive_close
        try dsimp only
        rw [if_pos (by rw [hrem])]
        rw [← h4]
        simp
      · rw [← h3, closeCount_append, closeCount_zero w2 hloc.2]
        rfl

/-- State after the first close on the concrete input. -/
def stClosed : St := (Channel.close testEnv 3 st0 [[SSH_MSG_CHANNEL_CLOSE, 0, 0, 0, 3]]).2.1

/-- Witness for C6: a concrete first close succeeds writing one CHANNEL_CLOSE;
the second close is a no-op with the same result. -/
theorem C6_close_idempotent_witness :
    Channel.close testEnv 2 stClosed [] = (.ok (), stClosed, [], [])
    ∧ closeCount [[SSH_MSG_CHANNEL_CLOSE, 0, 0, 0, 5]] = 1 :=
  (C6_close_idempotent testEnv).2.2 3 0 st0 [[SSH_MSG_CHANNEL_CLOSE, 0, 0, 0, 3]] stClosed
    [[SSH_MSG_CHANNEL_CLOSE, 0, 0, 0, 5]] [] (by decide) (by decide)

/-- C7: after close has sent CHANNEL_CLOSE, the drain behaves as the spec
words it — the source's `receive_close` equals the spec-worded variant that
dispatches every non-matching message (foreign CHANNEL_CLOSE included) to the
general handler `other`, a CHANNEL_CLOSE whose recipient channel equals
`client_channel` makes it return Ok setting `remote_close`, and without such a
message it never returns Ok. -/
theorem C7_receive_close_dispatch (env : Env) :
    (∀ (fuel : Nat) (st : St) (input : Input),
      Channel.receive_close env fuel st input = Channel.receive_close_spec env fuel st input)
    ∧ (∀ (fuel : Nat) (st : St) (tail : List Nat) (rest : Input),
        st.remote_close = false → st.client_channel < 2 ^ 32 →
        Channel.receive_close env (fuel + 2) st
            ((SSH_MSG_CHANNEL_CLOSE :: (u32be st.client_channel ++ tail)) :: rest)
          = (.ok (), { st with remote_close := true }, [], rest))
    ∧ (∀ (fuel : Nat) (st : St) (input : Input) (o : Outcome Unit) (st' : St) (w : Writes)
        (rem : Input), st.remote_close = false →
        (∀ m ∈ input, isMatchingClose st.client_channel m = false) →
        Channel.receive_close env fuel st input = (o, st', w, rem) → o ≠ .ok ()) := by
  refine ⟨?_, ?_, ?_⟩
  · intro fuel st input
    match fuel with
    | 0 => rfl
    | f + 1 =>
      unfold Channel.receive_close Channel.receive_close_spec
      try dsimp only
      by_cases hr : st.remote_close <;> simp [hr, receive_close_loop_eq_spec]
  · intro fuel st tail rest hrc hcc
    unfold Channel.receive_close
    try dsimp only
    rw [if_neg (by simp [hrc])]
    unfold Channel.receive_close_loop
    try dsimp only
    rw [if_pos rfl,
        if_pos (by rw [getU32_u32be]; exact Nat.mod_eq_of_lt hcc)]
  · intro fuel st input o st' w rem hrc hno h
    match fuel with
    | 0 =>
      unfold Channel.receive_close at h
      intro hk
      rw [hk] at h
      exact absurd (congrArg (fun p => p.1) h) (by simp)
    | f + 1 =>
      unfold Channel.receive_close at h
      try dsimp only at h
      rw [if_neg (by simp [hrc])] at h
      exact receive_close_loop_no_matching env f st input o st' w rem hno h

/-- Witness for C7: a matching CHANNEL_CLOSE returns Ok at once on concrete
input; with no matching close in the input, no Ok is produced. -/
theorem C7_receive_close_dispatch_witness :
    Channel.receive_close testEnv 2 st0
        ((SSH_MSG_CHANNEL_CLOSE :: (u32be st0.client_channel ++ [])) :: [])
      = (.ok (), { st0 with remote_close := true }, [], [])
    ∧ (Outcome.pending (α := Unit)) ≠ .ok () :=
  ⟨(C7_receive_close_dispatch testEnv).2.1 0 st0 [] [] (by decide) (by decide),
   (C7_receive_close_dispatch testEnv).2.2 2 st0 [[2]] .pending st0 [] []
     (by decide) (by decide) (by decide)⟩

/-- C8: the general handler answers GLOBAL_REQUEST with a single
REQUEST_FAILURE, raises the ChannelFailure error on CHANNEL_FAILURE, silently
acknowledges CHANNEL_SUCCESS / CHANNEL_EOF / CHANNEL_REQUEST with no reply and
no state change, and returns Ok with no state change on every code outside
its explicit list. -/
theorem C8_other_handler (env : Env) (fuel : Nat) (st : St) (body : List Nat) (input : Input) :
    Channel.other env (fuel + 1) st SSH_MSG_GLOBAL_REQUEST body input
      = (.ok (), st, [[SSH_MSG_REQUEST_FAILURE]], input)
    ∧ Channel.other env (fuel + 1) st SSH_MSG_CHANNEL_FAILURE body input
      = (.err .ChannelFailureError, st, [], input)
    ∧ Channel.other env (fuel + 1) st SSH_MSG_CHANNEL_SUCCESS body input = (.ok (), st, [], input)
    ∧ Channel.other env (fuel + 1) st SSH_MSG_CHANNEL_EOF body input = (.ok (), st, [], input)
    ∧ Channel.other env (fuel + 1) st SSH_MSG_CHANNEL_REQUEST body input = (.ok (), st, [], input)
    ∧ (∀ code : Nat,
        code ∉ ([SSH_MSG_GLOBAL_REQUEST, SSH_MSG_KEXINIT, SSH_MSG_KEX_ECDH_REPLY,
          SSH_MSG_NEWKEYS, SSH_MSG_CHANNEL_WINDOW_ADJUST, SSH_MSG_CHANNEL_EOF,
          SSH_MSG_CHANNEL_REQUEST, SSH_MSG_CHANNEL_SUCCESS, SSH_MSG_CHANNEL_FAILURE,
          SSH_MSG_CHANNEL_CLOSE] : List Nat) →
        Channel.other env (fuel + 1) st code body input = (.ok (), st, [], input)) := by
  refine ⟨rfl, rfl, rfl, rfl, rfl, ?_⟩
  intro code hmem
  simp only [List.mem_cons, List.not_mem_nil, or_false, not_or] at hmem
  obtain ⟨n1, n2, n3, n4, n5, n6, n7, n8, n9, n10⟩ := hmem
  unfold Channel.other
  try dsimp only
  rw [if_neg n1, if_neg n2, if_neg n3, if_neg n4, if_neg n5, if_neg n6, if_neg n7,
      if_neg n8, if_neg n9, if_neg n10]

/-- Witness for C8 at a concrete unlisted code (SSH_MSG_IGNORE = 2). -/
theorem C8_other_handler_witness :
    Channel.other testEnv 1 st0 2 [] [] = (.ok (), st0, [], []) :=
  (C8_other_handler testEnv 0 st0 [] []).2.2.2.2.2 2 (by decide)

/-- C9: both code paths that record the server KEXINIT as I_S store the same
bytes — `receive_algorithm` passes the buffer with the leading code byte
unconsumed, and the KEXINIT branch of the general handler re-prepends the
consumed code byte — so both record the message code followed by the body. -/
theorem C9_i_s_paths_agree (env : Env) (fuel : Nat) (st stB : St) (body : List Nat)
    (rest : Input) (input : Input) :
    ((Kex.receive_algorithm env st ((SSH_MSG_KEXINIT :: body) :: rest)).2.1).h.i_s
      = SSH_MSG_KEXINIT :: body
    ∧ ((Channel.other env (fuel + 1) stB SSH_MSG_KEXINIT body input).2.1).h.i_s
      = SSH_MSG_KEXINIT :: body := by
  constructor
  · rfl
  · unfold Channel.other
    try dsimp only
    rw [if_neg (by decide), if_pos rfl]
    rcases hm : env.matching with e | p
    · by_cases hE : stB.isEncrypt <;>
        simp [hm, hE, Kex.send_algorithm, processing_server_algorithm]
    · obtain ⟨dh, sign⟩ := p
      by_cases hE : stB.isEncrypt <;>
        simp [hm, hE, Kex.send_algorithm, processing_server_algorithm]

/-- C10: a CHANNEL_CLOSE for this channel arriving through the general handler
sets `remote_close`, then calls close, which sends at most one local
CHANNEL_CLOSE (none when `local_close` already holds) and returns Ok at once
with both flags set, without reading anything from the input. -/
theorem C10_remote_close_first (env : Env) (fuel : Nat) (st : St) (tail : List Nat)
    (input : Input) (hcc : st.client_channel < 2 ^ 32) :
    Channel.other env (fuel + 3) st SSH_MSG_CHANNEL_CLOSE (u32be st.client_channel ++ tail) input
      = (.ok (), { st with remote_close := true, local_close := true },
         if st.local_close then [] else [[SSH_MSG_CHANNEL_CLOSE] ++ u32be st.server_channel],
         input) := by
  unfold Channel.other
  try dsimp only
  rw [if_neg (by decide), if_neg (by decide), if_neg (by decide), if_neg (by decide),
      if_neg (by decide), if_neg (by decide), if_neg (by decide), if_neg (by decide),
      if_neg (by decide), if_pos rfl,
      if_pos (by rw [getU32_u32be]; exact Nat.mod_eq_of_lt hcc)]
  unfold Channel.close
  try dsimp only
  unfold Channel.send_close
  unfold Channel.receive_close
  try dsimp only
  by_cases hl : st.local_close
  · rw [if_pos (by simpa using hl)]
    try dsimp only
    rw [if_pos (by rfl)]
    try dsimp only
    obtain ⟨s1, s2, s3, s4, s5, s6, s7, s8, s9, s10, s11, s12⟩ := st
    simp only at hl
    subst hl
    simp
  · rw [if_neg (by simpa using hl)]
    try dsimp only
    rw [if_pos (by rfl)]
    try dsimp only
    obtain ⟨s1, s2, s3, s4, s5, s6, s7, s8, s9, s10, s11, s12⟩ := st
    simp only at hl
    simp only [Bool.not_eq_true] at hl
    subst hl
    simp

/-- Witness for C10: a concrete CHANNEL_CLOSE for channel 3 through the
handler closes both sides, writes one local CHANNEL_CLOSE, and leaves the
input untouched. -/
theorem C10_remote_close_first_witness :
    Channel.other testEnv 3 st0 SSH_MSG_CHANNEL_CLOSE (u32be st0.client_channel ++ []) [[1, 2]]
      = (.ok (), { st0 with remote_close := true, local_close := true },
         if st0.local_close then [] else [[SSH_MSG_CHANNEL_CLOSE] ++ u32be st0.server_channel],
         [[1, 2]]) :=
  C10_remote_close_first testEnv 0 st0 [] [[1, 2]] (by decide)

end SshRs
